import Mathlib

/-!
# Verification of the crypto ingestion pipeline

Shallow embedding of the three-stage ingestion pipeline
(`src/filters/filter1.py`, `filter2.py`, `filter3.py`, `src/http_client.py`,
`src/config.py`) of the repository, together with theorems settling the
frozen claims about it.

Modelling conventions:
* Calendar dates are proleptic-Gregorian day ordinals (`Nat`), the same
  encoding Python's `datetime.date` uses internally; `+ timedelta(days=1)`
  is `+ 1`.  For example `2024-01-10` is ordinal 738895 and `2024-01-11`
  is 738896.
* Prices and volumes are modelled as `ℚ`.  The pipeline copies these
  values around and compares them with `≤`/`=`; it performs no
  floating-point arithmetic on them, so exact rationals are faithful.
* Millisecond timestamps are `Nat`; `datetime.fromtimestamp(ms/1000,
  utc).date()` is `ms / 86400000` (floor division) for the non-negative
  timestamps the exchange returns.
* The HTTP layer is modelled as a function from the request parameters to
  `Except E (List Kline)`: `.error` is a `raise_for_status` failure.
* Python dicts keyed by date string (resp. ticker string) are modelled as
  functions `Nat → Option _` (resp. `String → Option _`); the ISO date
  string is in bijection with the date, and the pipeline only ever does
  key lookup / overwrite on these dicts, never ordered iteration.
* The SQLite store: the `.sql` statements loaded by `src/db.py` are not
  part of the source tree, so their semantics are modelled from the spec
  (§6): both tables support upsert-on-conflict keyed by ticker resp.
  (symbol identity, date).  Such definitions carry a
  `Modelled from the spec:` doc comment.
-/

/-! ## config.py -/

/-- `config.STABLE_QUOTES` from `src/config.py`. -/
def STABLE_QUOTES : List String :=
  ["USDT", "USDC", "FDUSD", "BUSD", "EUR", "BTC", "ETH", "BNB"]

/-- `config.TOP_N_SYMBOLS` from `src/config.py`. -/
def TOP_N_SYMBOLS : Nat := 1000

/-- `config.YEARS_OF_HISTORY` from `src/config.py`. -/
def YEARS_OF_HISTORY : Nat := 10

/-- `config.MAX_KLINES_PER_REQUEST` from `src/config.py`. -/
def MAX_KLINES_PER_REQUEST : Nat := 1000

/-! ## http_client.py -/

/-- A raw Binance kline, restricted to the six fields the pipeline
consumes (`k[0]`..`k[5]` in `normalize_klines`). -/
structure Kline where
  open_time_ms : Nat
  open_price : ℚ
  high_price : ℚ
  low_price : ℚ
  close_price : ℚ
  volume : ℚ
  deriving DecidableEq

/-- `date_to_ms` from `src/http_client.py`: UTC start-of-day timestamp in
milliseconds of a day ordinal. -/
def date_to_ms (d : Nat) : Nat := d * 86400000

/-- `datetime.fromtimestamp(ms / 1000, tz=utc).date()` for a non-negative
millisecond timestamp: the day ordinal containing it. -/
def dateOfMs (ms : Nat) : Nat := ms / 86400000

/-- The query parameters of one `/api/v3/klines` call built inside the
fetch loop of `fetch_klines_range`. -/
structure KlineRequest where
  symbol : String
  startTime : Nat
  endTime : Nat
  limit : Nat

/-- Outcome of `fetch_klines_range`: a full list of klines, an HTTP error
raised by `resp.raise_for_status()`, or fuel exhaustion (the marker for a
non-terminating loop: the Python `while` has no fuel, so an execution that
is `outOfFuel` for *every* fuel value never terminates). -/
inductive FetchResult (E : Type) where
  | ok : List Kline → FetchResult E
  | apiError : E → FetchResult E
  | outOfFuel : FetchResult E
  deriving DecidableEq

/-- The `while current_start <= end_date` loop body of
`fetch_klines_range` (`src/http_client.py`), with explicit fuel.  State:
current cursor `current_start` and accumulated `all_klines`.  Faithful to
the source: on a non-empty chunk the cursor jumps to the day after the
last returned kline, and the stall guard is literally
`if current_start <= start_date: break` — compared against the *original*
`start_date`, not the previous cursor. -/
def fetch_go {E : Type} (api : KlineRequest → Except E (List Kline))
    (symbol : String) (start_date end_date : Nat) :
    Nat → Nat → List Kline → FetchResult E
  | 0, _, _ => .outOfFuel
  | fuel + 1, current_start, all_klines =>
    if current_start ≤ end_date then
      match api ⟨symbol, date_to_ms current_start, date_to_ms end_date,
                 MAX_KLINES_PER_REQUEST⟩ with
      | .error e => .apiError e
      | .ok chunk =>
        match chunk.getLast? with
        | none => .ok all_klines
        | some lastk =>
          let next := dateOfMs lastk.open_time_ms + 1
          if next ≤ start_date then .ok (all_klines ++ chunk)
          else fetch_go api symbol start_date end_date fuel next
            (all_klines ++ chunk)
    else .ok all_klines

/-- `fetch_klines_range` from `src/http_client.py`. -/
def fetch_klines_range {E : Type} (api : KlineRequest → Except E (List Kline))
    (symbol : String) (start_date end_date fuel : Nat) : FetchResult E :=
  fetch_go api symbol start_date end_date fuel start_date []

/-! ## filter3.py: normalization -/

/-- One row of the `daily_data` table, i.e. the dict built in
`normalize_klines` (`src/filters/filter3.py`). -/
structure Row where
  symbol_id : Nat
  date : Nat
  open_ : ℚ
  high : ℚ
  low : ℚ
  close : ℚ
  volume : ℚ
  last_price_24h : ℚ
  volume_24h : ℚ
  high_24h : ℚ
  low_24h : ℚ
  liquidity : ℚ
  deriving DecidableEq

/-- The dict value `rows_by_date[date_str]` built from one kline in
`normalize_klines`. -/
def rowOfKline (symbol_id : Nat) (k : Kline) : Row :=
  { symbol_id := symbol_id
    date := dateOfMs k.open_time_ms
    open_ := k.open_price
    high := k.high_price
    low := k.low_price
    close := k.close_price
    volume := k.volume
    last_price_24h := k.close_price
    volume_24h := k.volume
    high_24h := k.high_price
    low_24h := k.low_price
    liquidity := k.volume }

/-- `normalize_klines` from `src/filters/filter3.py`: the dict
`rows_by_date`, keyed by UTC calendar date; a later kline for the same
date overwrites the earlier entry. -/
def normalize_klines (symbol_id : Nat) (klines : List Kline) :
    Nat → Option Row :=
  klines.foldl
    (fun m k => fun d =>
      if d = dateOfMs k.open_time_ms then some (rowOfKline symbol_id k)
      else m d)
    (fun _ => none)

/-! ## filter3.py: gap filling -/

/-- The synthetic candle built in the `else` branch of
`fill_missing_dates` when a previous close is known. -/
def synthRow (symbol_id date : Nat) (prev_close : ℚ) : Row :=
  { symbol_id := symbol_id
    date := date
    open_ := prev_close
    high := prev_close
    low := prev_close
    close := prev_close
    volume := 0
    last_price_24h := prev_close
    volume_24h := 0
    high_24h := prev_close
    low_24h := prev_close
    liquidity := 0 }

/-- The `while current <= end_date` loop of `fill_missing_dates`, over the
explicit list of day ordinals it walks.  State: `prev_close`. -/
def fill_list (symbol_id : Nat) (rows_by_date : Nat → Option Row) :
    Option ℚ → List Nat → List Row
  | _, [] => []
  | prev_close, d :: ds =>
    match rows_by_date d with
    | some row =>
      row :: fill_list symbol_id rows_by_date (some row.close) ds
    | none =>
      match prev_close with
      | some pc =>
        synthRow symbol_id d pc ::
          fill_list symbol_id rows_by_date (some pc) ds
      | none => fill_list symbol_id rows_by_date none ds

/-- The list of day ordinals `[s, s+1, ..., e]` the
`fill_missing_dates` loop iterates over. -/
def dateRange (s e : Nat) : List Nat :=
  (List.range (e + 1 - s)).map (s + ·)

/-- `fill_missing_dates` from `src/filters/filter3.py`. -/
def fill_missing_dates (symbol_id start_date end_date : Nat)
    (rows_by_date : Nat → Option Row) : List Row :=
  fill_list symbol_id rows_by_date none (dateRange start_date end_date)

/-! ## filter3.py: persistence -/

/-- The `daily_data` table: at most one row per (symbol identity, date)
key, per the spec's persistence-layer contract (§6). -/
def DailyStore : Type := Nat → Nat → Option Row

/-- Modelled from the spec: `insert_daily_data.sql` is loaded from the
`sql` directory by `src/db.py` but is not part of the source tree.  §6
specifies upsert-on-conflict semantics keyed by (symbol identity, date):
insert, or overwrite all non-key columns on conflict. -/
def insert_daily_data (st : DailyStore) (r : Row) : DailyStore :=
  fun sid d =>
    if sid = r.symbol_id ∧ d = r.date then some r else st sid d

/-- `cur.executemany(INSERT_DAILY_DATA_SQL, rows_to_store)`. -/
def executemany_daily (st : DailyStore) (rows : List Row) : DailyStore :=
  rows.foldl insert_daily_data st

/-- A `FetchTask` as produced by Filter 2 and consumed by Filter 3. -/
structure FetchTask where
  symbol_id : Nat
  symbol : String
  start_date : Nat
  end_date : Nat
  deriving DecidableEq

/-- Outcome of processing one task in `filter_3_fill_data`: success with
the updated store, an HTTP error propagating out with the store as it was
at that point, or divergence of the fetch loop. -/
inductive TaskResult (E : Type) where
  | ok : DailyStore → TaskResult E
  | err : E → DailyStore → TaskResult E
  | diverge : TaskResult E

/-- The body of the `for task in tasks_iter` loop of `filter_3_fill_data`
(`src/filters/filter3.py`) for one task: fetch, normalize, fill, then
insert-and-commit only if `rows_to_store` is non-empty. -/
def filter_3_fill_task {E : Type} (api : KlineRequest → Except E (List Kline))
    (fuel : Nat) (st : DailyStore) (task : FetchTask) : TaskResult E :=
  match fetch_klines_range api task.symbol task.start_date task.end_date fuel with
  | .outOfFuel => .diverge
  | .apiError e => .err e st
  | .ok klines =>
    let rows_by_date := normalize_klines task.symbol_id klines
    let rows_to_store :=
      fill_missing_dates task.symbol_id task.start_date task.end_date
        rows_by_date
    if rows_to_store.isEmpty then .ok st
    else .ok (executemany_daily st rows_to_store)

/-! ## filter2.py -/

/-- The body of the `for sym in symbols_iter` loop of
`filter_2_check_dates` (`src/filters/filter2.py`) for one symbol:
`last_date` is the result of `SELECT_LAST_DATE_SQL` (the maximum stored
date for the symbol, `none` when the symbol has no stored rows); `today`
is `date.today()`.  Yields at most one task. -/
def filter_2_check_dates_step (today symbol_id : Nat) (symbol : String)
    (last_date : Option Nat) : Option FetchTask :=
  let se : Nat × Nat :=
    match last_date with
    | none => (today - 365 * YEARS_OF_HISTORY, today)
    | some d => (d + 1, today)
  if se.1 ≤ se.2 then
    some ⟨symbol_id, symbol, se.1, se.2⟩
  else none

/-! ## filter1.py -/

/-- The fields of one `/api/v3/exchangeInfo` symbol object consumed by
Filter 1.  `isSpotTradingAllowed` is read with `.get`, so a missing key
(`none`) is distinguished from an explicit boolean. -/
structure SymbolInfo where
  symbol : String
  baseAsset : String
  quoteAsset : String
  status : String
  isSpotTradingAllowed : Option Bool
  deriving DecidableEq

/-- One `/api/v3/ticker/24hr` entry as consumed by
`build_liquidity_map`: `quoteVolume` is `some q` when the field parses as
a float, `none` when it is missing or malformed (both default to `0.0` in
the source). -/
structure Ticker where
  symbol : String
  quoteVolume : Option ℚ
  deriving DecidableEq

/-- `build_liquidity_map` from `src/filters/filter1.py`: the dict
`{symbol: liquidity_metric}`; a later ticker for the same symbol
overwrites the earlier entry. -/
def build_liquidity_map (tickers : List Ticker) : String → Option ℚ :=
  tickers.foldl
    (fun m t => fun s =>
      if s = t.symbol then some (t.quoteVolume.getD 0) else m s)
    (fun _ => none)

/-- `is_delisted` from `src/filters/filter1.py`. -/
def is_delisted (symbol_info : SymbolInfo) : Bool :=
  if symbol_info.status ≠ "TRADING" then true
  else if symbol_info.isSpotTradingAllowed = some false then true
  else false

/-- `has_unstable_quote` from `src/filters/filter1.py`. -/
def has_unstable_quote (symbol_info : SymbolInfo) : Bool :=
  symbol_info.quoteAsset ∉ STABLE_QUOTES

/-- The uniform candidate dict produced by `normalize_symbol`. -/
structure Candidate where
  symbol : String
  base_asset : String
  quote_asset : String
  liquidity_metric : ℚ
  deriving DecidableEq

/-- `normalize_symbol` from `src/filters/filter1.py`. -/
def normalize_symbol (symbol_info : SymbolInfo)
    (liquidity_map : String → Option ℚ) : Candidate :=
  { symbol := symbol_info.symbol
    base_asset := symbol_info.baseAsset
    quote_asset := symbol_info.quoteAsset
    liquidity_metric := (liquidity_map symbol_info.symbol).getD 0 }

/-- The candidate-building `for info in symbol_infos` loop of
`filter_1_get_symbols`: skip delisted, skip unstable quote, skip
non-positive liquidity, append the rest in order. -/
def build_candidates (symbol_infos : List SymbolInfo)
    (liquidity_map : String → Option ℚ) : List Candidate :=
  symbol_infos.filterMap (fun info =>
    if is_delisted info then none
    else if has_unstable_quote info then none
    else
      let sym := normalize_symbol info liquidity_map
      if sym.liquidity_metric ≤ 0 then none
      else some sym)

/-- `candidates.sort(key=lambda x: x["liquidity_metric"], reverse=True)`:
Python's `list.sort` is a stable sort, and with `reverse=True` it orders
by key descending while equal-key elements keep their original relative
order.  A stable sort's output is uniquely determined by the order and
the input, so the (stable) insertion sort with the relation
"`b.liquidity_metric ≤ a.liquidity_metric`" is the same function. -/
def sort_by_liquidity (candidates : List Candidate) : List Candidate :=
  List.insertionSort
    (fun a b => b.liquidity_metric ≤ a.liquidity_metric) candidates

/-- `top_active = candidates[:max_symbols]` after the in-place sort. -/
def top_active (max_symbols : Nat) (candidates : List Candidate) : List Candidate :=
  (sort_by_liquidity candidates).take max_symbols

/-- One row of the `cryptocurrencies` table. -/
structure CryptoRow where
  id : Nat
  base_asset : String
  quote_asset : String
  is_active : Bool
  deriving DecidableEq

/-- The `cryptocurrencies` table: rows keyed by the unique ticker, plus
the next fresh storage identity (the spec fixes ids as assigned by the
persistence layer on first insert and stable thereafter). -/
structure SymbolTable where
  rows : String → Option CryptoRow
  next_id : Nat

/-- `cur.execute("UPDATE cryptocurrencies SET is_active = 0")` — this SQL
string is inline in `src/filters/filter1.py`. -/
def clear_active (st : SymbolTable) : SymbolTable :=
  { st with rows := fun s => (st.rows s).map (fun r => { r with is_active := false }) }

/-- Modelled from the spec: `upsert_symbol.sql` is loaded by `src/db.py`
but is not part of the source tree.  §4.1/§6 specify upsert keyed by the
unique ticker: insert a new row (fresh storage identity, active flag
true) or overwrite the non-key columns and set the active flag true,
reusing the stored identity. -/
def upsert_symbol (st : SymbolTable) (sym : Candidate) : SymbolTable :=
  match st.rows sym.symbol with
  | some r =>
    { st with
      rows := fun s =>
        if s = sym.symbol then
          some { r with base_asset := sym.base_asset,
                        quote_asset := sym.quote_asset, is_active := true }
        else st.rows s }
  | none =>
    { rows := fun s =>
        if s = sym.symbol then
          some ⟨st.next_id, sym.base_asset, sym.quote_asset, true⟩
        else st.rows s
      next_id := st.next_id + 1 }

/-- Modelled from the spec: `select_by_id_cryptocurrencies.sql` is loaded
by `src/db.py` but is not part of the source tree; per §6 it returns the
stored row for a ticker, from which the source reads `row["id"]`.  It is
called right after `upsert_symbol`, so the row exists; the `0` default is
unreachable there. -/
def select_crypto_id (st : SymbolTable) (ticker : String) : Nat :=
  match st.rows ticker with
  | some r => r.id
  | none => 0

/-- A symbol record emitted by Filter 1: the candidate dict with the key
`"symbol_id"` added after the upsert. -/
structure SymOut where
  symbol : String
  base_asset : String
  quote_asset : String
  liquidity_metric : ℚ
  symbol_id : Nat

/-- Outcome of a Filter 1 run: an HTTP error with the table as it was at
that point, or success with the updated table and the emitted records. -/
inductive Filter1Result (E : Type) where
  | err : E → SymbolTable → Filter1Result E
  | ok : SymbolTable → List SymOut → Filter1Result E

/-- `filter_1_get_symbols` from `src/filters/filter1.py`.  `metaRes` and
`tickRes` are the outcomes of `fetch_spot_symbols()` and
`fetch_24h_tickers()`; a `.error` models the `requests` call raising.
The generator runs all storage writes (clear, upserts, id lookups,
commit) before the first `yield`, so a single function returning the
final table and the emitted list is faithful. -/
def filter_1_get_symbols {E : Type} (max_symbols : Nat)
    (metaRes : Except E (List SymbolInfo)) (tickRes : Except E (List Ticker))
    (st : SymbolTable) : Filter1Result E :=
  match metaRes with
  | .error e => .err e st
  | .ok symbol_infos =>
    match tickRes with
    | .error e => .err e st
    | .ok tickers =>
      let liquidity_map := build_liquidity_map tickers
      let candidates := build_candidates symbol_infos liquidity_map
      let top := top_active max_symbols candidates
      if top.isEmpty then .ok st []
      else
        let st1 := clear_active st
        let final := top.foldl
          (fun (acc : SymbolTable × List SymOut) sym =>
            let st' := upsert_symbol acc.1 sym
            let sid := select_crypto_id st' sym.symbol
            (st', acc.2 ++
              [⟨sym.symbol, sym.base_asset, sym.quote_asset,
                sym.liquidity_metric, sid⟩]))
          (st1, [])
        .ok final.1 final.2

/-! ## Specification-side helper functions

These are not part of the source; they name the quantities the claims
speak about (the running "previous close" of the gap-fill walk, the rows
emitted for a single date) so the claim theorems can refer to them. -/

/-- One update of the gap-fill walk's `prev_close` state when passing
date `d`: a real bar replaces it by its close, a missing date leaves it
unchanged. -/
def pcStep (rows_by_date : Nat → Option Row) (pc : Option ℚ) (d : Nat) :
    Option ℚ :=
  match rows_by_date d with
  | some row => some row.close
  | none => pc

/-- `prevCloseGo rows pc s n`: the `prev_close` state after walking the
`n` dates `s, s+1, ..., s+n-1`. -/
def prevCloseGo (rows_by_date : Nat → Option Row) :
    Option ℚ → Nat → Nat → Option ℚ
  | pc, _, 0 => pc
  | pc, s, n + 1 => prevCloseGo rows_by_date (pcStep rows_by_date pc s) (s + 1) n

/-- The value of `prev_close` when the gap-fill walk that started at `s`
with state `pc` reaches date `d`: the close of the latest real bar in
`[s, d)`, or `pc` if there is none. -/
def prevCloseAt (rows_by_date : Nat → Option Row) (pc : Option ℚ)
    (s d : Nat) : Option ℚ :=
  prevCloseGo rows_by_date pc s (d - s)

/-- The rows the gap-fill walk appends for a single date `d` given state
`pc`: the real bar, a synthetic bar, or nothing. -/
def fillHead (symbol_id : Nat) (rows_by_date : Nat → Option Row)
    (prev_close : Option ℚ) (d : Nat) : List Row :=
  match rows_by_date d with
  | some row => [row]
  | none =>
    match prev_close with
    | some pc => [synthRow symbol_id d pc]
    | none => []

/-- The dict produced by `normalize_klines` keys every row by its own
date and carries the task's symbol identity. -/
def RowsCoherent (symbol_id : Nat) (rows_by_date : Nat → Option Row) :
    Prop :=
  ∀ d r, rows_by_date d = some r → r.date = d ∧ r.symbol_id = symbol_id

/-! ## Concrete instances used by witnesses and counterexamples -/

/-- API mock for C1: every call returns the same single candle, whose
open time falls on day ordinal 5. -/
def echoApi : KlineRequest → Except String (List Kline) :=
  fun _ => .ok [⟨5 * 86400000, 1, 2, 3, 4, 6⟩]

/-- API mock for the C4 witness: first page (startTime at day 0)
succeeds with one candle on day 0, every later page fails. -/
def apiC4 : KlineRequest → Except String (List Kline) :=
  fun req =>
    if req.startTime = 0 then .ok [⟨0, 1, 2, 3, 4, 5⟩]
    else .error "HTTP 500"

/-- A daily store holding one pre-existing row, to exhibit that a failed
task leaves it untouched. -/
def storeC4 : DailyStore :=
  fun sid d => if sid = 1 ∧ d = 9 then some (synthRow 1 9 3) else none

/-- API mock for the C2 counterexample: one page holding a single candle
on day 1 (none for day 0), then the pagination stops. -/
def apiC2x : KlineRequest → Except String (List Kline) :=
  fun _ => .ok [⟨86400000, 1, 2, 3, 4, 6⟩]

/-- The C2 counterexample task: range [0, 1]. -/
def taskC2x : FetchTask := ⟨1, "BTCUSDT", 0, 1⟩

/-- The empty daily store. -/
def storeEmpty : DailyStore := fun _ _ => none

/-- The store after the C2 counterexample task completes successfully. -/
def storeC2xAfter : DailyStore :=
  match filter_3_fill_task apiC2x 2 storeEmpty taskC2x with
  | .ok st => st
  | _ => storeEmpty

/-- API mock for the C2-amended witness: one page holding one candle on
day 0, then an empty page. -/
def apiC2w : KlineRequest → Except String (List Kline) :=
  fun req => if req.startTime = 0 then .ok [⟨0, 1, 2, 3, 5, 6⟩] else .ok []

/-- The C2-amended witness task: range [0, 1]. -/
def taskC2w : FetchTask := ⟨7, "BTCUSDT", 0, 1⟩

/-- The klines the C2-amended witness API returns in total. -/
def klinesC2w : List Kline := [⟨0, 1, 2, 3, 5, 6⟩]

/-- The store after the C2-amended witness task completes. -/
def storeC2wAfter : DailyStore :=
  match filter_3_fill_task apiC2w 3 storeEmpty taskC2w with
  | .ok st => st
  | _ => storeEmpty

/-- Klines for the C5 witness: real candles on days 0 (close 5) and 2
only. -/
def klinesC5 : List Kline :=
  [⟨0, 1, 2, 3, 5, 6⟩, ⟨2 * 86400000, 10, 20, 30, 40, 50⟩]

/-- The normalized dict of `klinesC5`. -/
def rowsC5 : Nat → Option Row := normalize_klines 7 klinesC5

/-- The three C7 candidates with liquidity values 100, 50, 100. -/
def candA : Candidate := ⟨"AAAUSDT", "AAA", "USDT", 100⟩

/-- See `candA`. -/
def candB : Candidate := ⟨"BBBUSDT", "BBB", "USDT", 50⟩

/-- See `candA`. -/
def candC : Candidate := ⟨"CCCUSDT", "CCC", "USDT", 100⟩

/-- The empty symbol table. -/
def tableEmpty : SymbolTable := ⟨fun _ => none, 0⟩

/-! ## Theorems -/

/-! ### C1: pagination stall -/

lemma fetch_go_echo_stuck (fuel : Nat) :
    ∀ acc, fetch_go echoApi "BTCUSDT" 0 10 fuel 6 acc =
      FetchResult.outOfFuel := by
  induction fuel with
  | zero => intro acc; rfl
  | succ n ih =>
    intro acc
    show fetch_go echoApi "BTCUSDT" 0 10 (n + 1) 6 acc = _
    rw [fetch_go]
    simp only [echoApi, dateOfMs, date_to_ms]
    norm_num
    exact ih _

/-- **C1** (code bug).  The paginated kline fetch loop does *not* always
break out when the cursor fails to advance: against an API mock that
returns the same single candle (day 5) on every call, a task with range
[0, 10] makes `fetch_klines_range` spin forever — it runs out of *any*
amount of fuel.  The source's stall guard compares the new cursor against
the original `start_date` instead of the previous cursor, so a cursor
stuck at day 6 (inside the range) never triggers it, contradicting the
intent stated in its own comment. -/
theorem fetch_klines_range_stall_divergence :
    ∀ fuel : Nat,
      fetch_klines_range echoApi "BTCUSDT" 0 10 fuel =
        FetchResult.outOfFuel := by
  intro fuel
  cases fuel with
  | zero => rfl
  | succ n =>
    show fetch_go echoApi "BTCUSDT" 0 10 (n + 1) 0 [] = _
    rw [fetch_go]
    simp only [echoApi, dateOfMs, date_to_ms]
    norm_num
    exact fetch_go_echo_stuck n _

/-! ### C3: Selector API failure leaves storage untouched -/

/-- **C3**.  If either market-data call of the Symbol Selector fails, the
run aborts with the symbol table exactly as it was — in particular the
previously stored active flags are unchanged and nothing is emitted.
The second conjunct is the case where the 24h-statistics call fails
after the metadata fetch succeeded. -/
theorem filter1_api_failure_no_writes {E : Type} (e : E) :
    (∀ (max_symbols : Nat) (tickRes : Except E (List Ticker))
        (st : SymbolTable),
        filter_1_get_symbols max_symbols (.error e) tickRes st =
          .err e st) ∧
    (∀ (max_symbols : Nat) (symbol_infos : List SymbolInfo)
        (st : SymbolTable),
        filter_1_get_symbols max_symbols (.ok symbol_infos) (.error e) st =
          .err e st) :=
  ⟨fun _ _ _ => rfl, fun _ _ _ => rfl⟩

/-! ### C4: a failed fetch persists nothing -/

/-- **C4**.  If the paginated fetch raises an API error (at any page),
the task aborts and the daily store is returned exactly as it was:
normalization, gap filling and the batch insert run only on the `.ok`
branch, after the complete page sequence has been collected. -/
theorem filter3_api_error_no_partial_persistence {E : Type}
    (api : KlineRequest → Except E (List Kline)) (fuel : Nat)
    (st : DailyStore) (task : FetchTask) (e : E)
    (h : fetch_klines_range api task.symbol task.start_date task.end_date
        fuel = .apiError e) :
    filter_3_fill_task api fuel st task = .err e st := by
  unfold filter_3_fill_task
  rw [h]

/-- Witness for C4: an API that serves page one (a candle on day 0) and
fails on page two; the task over [0, 2] aborts mid-pagination and the
pre-existing store — holding one row at (1, 9) — comes back unchanged. -/
theorem filter3_api_error_witness :
    filter_3_fill_task apiC4 3 storeC4 ⟨1, "BTCUSDT", 0, 2⟩ =
      .err "HTTP 500" storeC4 :=
  filter3_api_error_no_partial_persistence apiC4 3 storeC4
    ⟨1, "BTCUSDT", 0, 2⟩ "HTTP 500" rfl

/-! ### C6: Gap Detector range arithmetic -/

/-- **C6**.  Per symbol the Gap Detector emits at most one task (the
`Option` result): with no stored date the range is
[today − 365·`YEARS_OF_HISTORY`, today]; with maximum stored date `d` it
is [d + 1, today] exactly when `d + 1 ≤ today` and nothing otherwise;
and every emitted task satisfies `start ≤ end`. -/
theorem filter2_task_range (today symbol_id : Nat) (symbol : String)
    (h : 365 * YEARS_OF_HISTORY ≤ today) :
    (filter_2_check_dates_step today symbol_id symbol none =
        some ⟨symbol_id, symbol, today - 365 * YEARS_OF_HISTORY, today⟩) ∧
    (∀ d, filter_2_check_dates_step today symbol_id symbol (some d) =
        if d + 1 ≤ today then some ⟨symbol_id, symbol, d + 1, today⟩
        else none) ∧
    (∀ (last_date : Option Nat) (t : FetchTask),
        filter_2_check_dates_step today symbol_id symbol last_date = some t →
        t.start_date ≤ t.end_date) := by
  refine ⟨?_, ?_, ?_⟩
  · unfold filter_2_check_dates_step
    rw [if_pos (Nat.sub_le _ _)]
  · intro d; rfl
  · intro last_date t ht
    have key : ∀ a b : Nat,
        (if a ≤ b then
            some (⟨symbol_id, symbol, a, b⟩ : FetchTask)
          else none) = some t →
        t.start_date ≤ t.end_date := by
      intro a b hab
      by_cases hle : a ≤ b
      · rw [if_pos hle] at hab
        cases hab
        exact hle
      · rw [if_neg hle] at hab
        exact absurd hab (by simp)
    cases last_date with
    | none =>
      simp only [filter_2_check_dates_step] at ht
      exact key _ _ ht
    | some d =>
      simp only [filter_2_check_dates_step] at ht
      exact key _ _ ht

/-- Witness for C6, with real calendar ordinals: today = 738900; a
symbol whose last stored date is 738895 (2024-01-10) yields the task
[738896 (2024-01-11), 738900]; a symbol with no stored data yields the
full ten-year window ending today. -/
theorem filter2_task_range_witness :
    filter_2_check_dates_step 738900 3 "BTCUSDT" none =
      some ⟨3, "BTCUSDT", 738900 - 365 * YEARS_OF_HISTORY, 738900⟩ ∧
    filter_2_check_dates_step 738900 3 "BTCUSDT" (some 738895) =
      some ⟨3, "BTCUSDT", 738896, 738900⟩ := by
  have h := filter2_task_range 738900 3 "BTCUSDT" (by decide)
  refine ⟨h.1, ?_⟩
  rw [h.2.1 738895, if_pos (by decide)]

/-! ### C8: zero surviving candidates is a no-op -/

/-- **C8**.  If filtering leaves zero candidates, the Selector emits
nothing and performs no storage write: the symbol table comes back
exactly as it was (no blanket clear of the active flags). -/
theorem filter1_zero_candidates_noop {E : Type} (max_symbols : Nat)
    (symbol_infos : List SymbolInfo) (tickers : List Ticker)
    (st : SymbolTable)
    (h : build_candidates symbol_infos (build_liquidity_map tickers) = []) :
    @filter_1_get_symbols E max_symbols (.ok symbol_infos)
      (.ok tickers) st = .ok st [] := by
  have htop : top_active max_symbols
      (build_candidates symbol_infos (build_liquidity_map tickers)) = [] := by
    rw [h]; simp [top_active, sort_by_liquidity]
  simp [filter_1_get_symbols, htop]

/-- Witness for C8: no instruments at all, hence no candidates; the
(empty) table is untouched. -/
theorem filter1_zero_candidates_noop_witness :
    @filter_1_get_symbols String 5 (.ok []) (.ok []) tableEmpty =
      .ok tableEmpty [] :=
  filter1_zero_candidates_noop 5 [] [] tableEmpty rfl

/-! ### C10: normalization deduplicates by date, last kline wins -/

lemma normalize_go_lookup (symbol_id d : Nat) :
    ∀ (klines : List Kline) (m : Nat → Option Row),
      klines.foldl
        (fun m k => fun d' =>
          if d' = dateOfMs k.open_time_ms then some (rowOfKline symbol_id k)
          else m d')
        m d =
      match klines.reverse.find?
          (fun k => decide (dateOfMs k.open_time_ms = d)) with
      | some k => some (rowOfKline symbol_id k)
      | none => m d := by
  intro klines
  induction klines with
  | nil => intro m; rfl
  | cons k t ih =>
    intro m
    rw [List.foldl_cons, ih, List.reverse_cons, List.find?_append]
    cases hf : t.reverse.find? (fun k => decide (dateOfMs k.open_time_ms = d)) with
    | some k' => simp [hf]
    | none =>
      by_cases hk : dateOfMs k.open_time_ms = d
      · simp [hf, hk]
      · have hk' : ¬d = dateOfMs k.open_time_ms := fun hd => hk hd.symm
        simp [hf, hk, hk']

/-- The dict built by `normalize_klines` keys each row by its own UTC
date and the task's symbol identity. -/
lemma normalize_coherent (symbol_id : Nat) (klines : List Kline) :
    RowsCoherent symbol_id (normalize_klines symbol_id klines) := by
  intro d r h
  rw [normalize_klines, normalize_go_lookup] at h
  cases hf : klines.reverse.find? (fun k => decide (dateOfMs k.open_time_ms = d)) with
  | some k =>
    rw [hf] at h
    cases h
    have := List.find?_some hf
    simp only [decide_eq_true_eq] at this
    exact ⟨this, rfl⟩
  | none => rw [hf] at h; exact Option.noConfusion h

/-- **C10**.  The normalized dict has at most one row per UTC calendar
date by construction (it is a map keyed by date), and its entry for date
`d` comes from the *last* kline in the fetched list whose open time falls
on `d` — the first match in the reversed list — so overlapping or
repeated pages never yield duplicate rows for one date. -/
theorem normalize_klines_last_wins (symbol_id : Nat) (klines : List Kline)
    (d : Nat) :
    normalize_klines symbol_id klines d =
      (klines.reverse.find?
          (fun k => decide (dateOfMs k.open_time_ms = d))).map
        (rowOfKline symbol_id) := by
  rw [normalize_klines, normalize_go_lookup]
  cases klines.reverse.find? (fun k => decide (dateOfMs k.open_time_ms = d)) <;>
    rfl

/-! ### C9: candidate filtering -/

lemma is_delisted_iff (info : SymbolInfo) :
    is_delisted info = true ↔
      info.status ≠ "TRADING" ∨ info.isSpotTradingAllowed = some false := by
  unfold is_delisted
  split_ifs with h1 h2
  · simp [h1]
  · simp [h1, h2]
  · simp [h1, h2]

lemma has_unstable_quote_iff (info : SymbolInfo) :
    has_unstable_quote info = true ↔ info.quoteAsset ∉ STABLE_QUOTES := by
  simp [has_unstable_quote]

/-- **C9**.  An instrument is excluded from the candidate list exactly
when its trading status is not `"TRADING"`, or its spot-trading flag is
explicitly disabled, or its quote asset is outside the stable-quote
allow-list, or its attached liquidity is ≤ 0; every other instrument
becomes a candidate carrying its liquidity value from the 24h map
(`0` when absent). -/
theorem filter1_candidate_characterization
    (symbol_infos : List SymbolInfo) (lm : String → Option ℚ)
    (c : Candidate) :
    (c ∈ build_candidates symbol_infos lm ↔
      ∃ info, info ∈ symbol_infos ∧ c = normalize_symbol info lm ∧
        ¬(info.status ≠ "TRADING" ∨ info.isSpotTradingAllowed = some false ∨
          info.quoteAsset ∉ STABLE_QUOTES ∨ (lm info.symbol).getD 0 ≤ 0)) ∧
    (∀ info, (normalize_symbol info lm).liquidity_metric =
      (lm info.symbol).getD 0) := by
  constructor
  · rw [build_candidates, List.mem_filterMap]
    constructor
    · rintro ⟨info, hmem, hf⟩
      refine ⟨info, hmem, ?_⟩
      by_cases h1 : is_delisted info
      · rw [if_pos h1] at hf; exact Option.noConfusion hf
      · rw [if_neg h1] at hf
        by_cases h2 : has_unstable_quote info
        · rw [if_pos h2] at hf; exact Option.noConfusion hf
        · rw [if_neg h2] at hf
          by_cases h3 : (normalize_symbol info lm).liquidity_metric ≤ 0
          · rw [if_pos h3] at hf; exact Option.noConfusion hf
          · rw [if_neg h3] at hf
            cases hf
            refine ⟨rfl, ?_⟩
            rw [is_delisted_iff] at h1
            rw [has_unstable_quote_iff] at h2
            push_neg at h1 h2 ⊢
            exact ⟨h1.1, h1.2, h2, by simpa [normalize_symbol] using h3⟩
    · rintro ⟨info, hmem, rfl, hnot⟩
      push_neg at hnot
      obtain ⟨ha, hb, hc, hd⟩ := hnot
      refine ⟨info, hmem, ?_⟩
      rw [if_neg (by rw [is_delisted_iff]; push_neg; exact ⟨ha, hb⟩),
        if_neg (by rw [has_unstable_quote_iff]; simpa using hc),
        if_neg (by simpa [normalize_symbol] using hd)]
  · intro info; rfl

/-! ### Gap-fill walk lemmas (for C5 and C2) -/

lemma dateRange_cons {s e : Nat} (h : s ≤ e) :
    dateRange s e = s :: dateRange (s + 1) e := by
  unfold dateRange
  have h1 : e + 1 - s = (e - s) + 1 := by omega
  have h2 : e + 1 - (s + 1) = e - s := by omega
  rw [h1, h2, List.range_succ_eq_map, List.map_cons, List.map_map]
  have h3 : ((s + ·) ∘ Nat.succ) = ((s + 1) + ·) := by
    funext n
    simp [Function.comp]
    omega
  rw [h3, Nat.add_zero]

lemma dateRange_nil {s e : Nat} (h : e < s) : dateRange s e = [] := by
  unfold dateRange
  have h1 : e + 1 - s = 0 := by omega
  rw [h1]
  rfl

lemma mem_dateRange {x s e : Nat} : x ∈ dateRange s e ↔ s ≤ x ∧ x ≤ e := by
  unfold dateRange
  simp only [List.mem_map, List.mem_range]
  constructor
  · rintro ⟨i, hi, rfl⟩
    omega
  · rintro ⟨h1, h2⟩
    exact ⟨x - s, by omega, by omega⟩

lemma fill_list_cons (symbol_id : Nat) (rows : Nat → Option Row)
    (pc : Option ℚ) (d : Nat) (ds : List Nat) :
    fill_list symbol_id rows pc (d :: ds) =
      fillHead symbol_id rows pc d ++
        fill_list symbol_id rows (pcStep rows pc d) ds := by
  cases h : rows d with
  | some row => simp [fill_list, fillHead, pcStep, h]
  | none => cases pc <;> simp [fill_list, fillHead, pcStep, h]

lemma fillHead_date {symbol_id : Nat} {rows : Nat → Option Row}
    {pc : Option ℚ} {d : Nat} {r : Row}
    (hcoh : ∀ d r, rows d = some r → r.date = d)
    (h : r ∈ fillHead symbol_id rows pc d) : r.date = d := by
  unfold fillHead at h
  cases hr : rows d with
  | some row =>
    rw [hr] at h
    simp only [List.mem_singleton] at h
    subst h
    exact hcoh d r hr
  | none =>
    rw [hr] at h
    cases pc with
    | some c =>
      simp only [List.mem_singleton] at h
      subst h
      rfl
    | none => simp at h

lemma fill_dates {symbol_id : Nat} {rows : Nat → Option Row}
    (hcoh : ∀ d r, rows d = some r → r.date = d) :
    ∀ (ds : List Nat) (pc : Option ℚ) (r : Row),
      r ∈ fill_list symbol_id rows pc ds → r.date ∈ ds := by
  intro ds
  induction ds with
  | nil => intro pc r h; simp [fill_list] at h
  | cons d t ih =>
    intro pc r h
    rw [fill_list_cons] at h
    rcases List.mem_append.1 h with h | h
    · exact (fillHead_date hcoh h) ▸ List.mem_cons_self _ _
    · exact List.mem_cons_of_mem _ (ih _ _ h)

lemma prevCloseAt_refl {rows : Nat → Option Row} {pc : Option ℚ}
    {s d : Nat} (h : d ≤ s) : prevCloseAt rows pc s d = pc := by
  unfold prevCloseAt
  have : d - s = 0 := by omega
  rw [this]
  rfl

lemma prevCloseAt_step {rows : Nat → Option Row} {pc : Option ℚ}
    {s d : Nat} (h : s < d) :
    prevCloseAt rows pc s d =
      prevCloseAt rows (pcStep rows pc s) (s + 1) d := by
  unfold prevCloseAt
  have h1 : d - s = (d - (s + 1)) + 1 := by omega
  rw [h1]
  rfl

lemma pcStep_isSome {rows : Nat → Option Row} {pc : Option ℚ} {d : Nat}
    (h : pc.isSome) : (pcStep rows pc d).isSome := by
  unfold pcStep
  cases rows d <;> simp [h]

lemma prevCloseGo_isSome {rows : Nat → Option Row} :
    ∀ (n : Nat) (pc : Option ℚ) (s : Nat), pc.isSome →
      (prevCloseGo rows pc s n).isSome := by
  intro n
  induction n with
  | zero => intro pc s h; exact h
  | succ m ih => intro pc s h; exact ih _ _ (pcStep_isSome h)

lemma prevCloseAt_isSome_of_pc {rows : Nat → Option Row} {pc : Option ℚ}
    {s d : Nat} (h : pc.isSome) : (prevCloseAt rows pc s d).isSome :=
  prevCloseGo_isSome _ _ _ h

lemma prevCloseAt_isSome_of_real {rows : Nat → Option Row}
    (pc : Option ℚ) (s d' d : Nat) (h1 : s ≤ d') (h2 : d' < d)
    (h : (rows d').isSome) : (prevCloseAt rows pc s d).isSome := by
  rcases Nat.lt_or_ge s d' with hlt | hge
  · rw [prevCloseAt_step (by omega)]
    exact prevCloseAt_isSome_of_real (pcStep rows pc s) (s + 1) d' d
      (by omega) h2 h
  · have hsd : s = d' := by omega
    subst hsd
    rw [prevCloseAt_step (by omega)]
    apply prevCloseAt_isSome_of_pc
    unfold pcStep
    cases hr : rows s with
    | some row => simp
    | none => rw [hr] at h; simp at h
termination_by d' - s

lemma prevCloseAt_of_none_between {rows : Nat → Option Row}
    (pc : Option ℚ) (s d : Nat)
    (h : ∀ x, s ≤ x → x < d → rows x = none) :
    prevCloseAt rows pc s d = pc := by
  rcases Nat.lt_or_ge s d with hlt | hge
  · rw [prevCloseAt_step hlt]
    have hstep : pcStep rows pc s = pc := by
      unfold pcStep
      rw [h s (le_refl s) hlt]
    rw [hstep]
    exact prevCloseAt_of_none_between pc (s + 1) d
      (fun x hx1 hx2 => h x (by omega) hx2)
  · exact prevCloseAt_refl hge
termination_by d - s

lemma prevCloseAt_last_real {rows : Nat → Option Row}
    (pc : Option ℚ) (s d' d : Nat) (h1 : s ≤ d') (h2 : d' < d)
    {r : Row} (hr : rows d' = some r)
    (hnone : ∀ x, d' < x → x < d → rows x = none) :
    prevCloseAt rows pc s d = some r.close := by
  rcases Nat.lt_or_ge s d' with hlt | hge
  · rw [prevCloseAt_step (by omega)]
    exact prevCloseAt_last_real (pcStep rows pc s) (s + 1) d' d
      (by omega) h2 hr hnone
  · have hsd : s = d' := by omega
    subst hsd
    rw [prevCloseAt_step (by omega)]
    have hstep : pcStep rows pc s = some r.close := by
      unfold pcStep
      rw [hr]
    rw [hstep]
    exact prevCloseAt_of_none_between _ (s + 1) d
      (fun x hx1 hx2 => hnone x (by omega) hx2)
termination_by d' - s

lemma fill_mem_real {symbol_id : Nat} {rows : Nat → Option Row} {r : Row}
    (s d e : Nat) (pc : Option ℚ) (h1 : s ≤ d) (h2 : d ≤ e)
    (hr : rows d = some r) :
    r ∈ fill_list symbol_id rows pc (dateRange s e) := by
  rcases Nat.lt_or_ge s d with hlt | hge
  · rw [dateRange_cons (by omega), fill_list_cons]
    exact List.mem_append_right _
      (fill_mem_real (s + 1) d e _ (by omega) h2 hr)
  · have hsd : s = d := by omega
    subst hsd
    rw [dateRange_cons (by omega), fill_list_cons]
    apply List.mem_append_left
    unfold fillHead
    rw [hr]
    simp
termination_by d - s

lemma fill_mem_synth {symbol_id : Nat} {rows : Nat → Option Row} {c : ℚ}
    (s d e : Nat) (pc : Option ℚ) (h1 : s ≤ d) (h2 : d ≤ e)
    (hnone : rows d = none) (hpc : prevCloseAt rows pc s d = some c) :
    synthRow symbol_id d c ∈ fill_list symbol_id rows pc (dateRange s e) := by
  rcases Nat.lt_or_ge s d with hlt | hge
  · rw [dateRange_cons (by omega), fill_list_cons]
    refine List.mem_append_right _ ?_
    apply fill_mem_synth (s + 1) d e (pcStep rows pc s) (by omega) h2 hnone
    rw [← prevCloseAt_step hlt]
    exact hpc
  · have hsd : s = d := by omega
    subst hsd
    rw [prevCloseAt_refl (le_refl _)] at hpc
    rw [dateRange_cons (by omega), fill_list_cons]
    apply List.mem_append_left
    unfold fillHead
    rw [hnone, hpc]
    simp
termination_by d - s

lemma fill_none_no_row {symbol_id : Nat} {rows : Nat → Option Row}
    (hcoh : ∀ d r, rows d = some r → r.date = d)
    (s d e : Nat) (pc : Option ℚ) (h1 : s ≤ d)
    (hnone : rows d = none) (hpc : prevCloseAt rows pc s d = none) :
    ∀ r ∈ fill_list symbol_id rows pc (dateRange s e), r.date ≠ d := by
  intro r hr
  by_cases hse : s ≤ e
  · rcases Nat.lt_or_ge s d with hlt | hge
    · rw [dateRange_cons hse, fill_list_cons] at hr
      rcases List.mem_append.1 hr with hh | ht
      · have := fillHead_date hcoh hh
        omega
      · exact fill_none_no_row hcoh (s + 1) d e _ (by omega) hnone
          (by rw [← prevCloseAt_step hlt]; exact hpc) r ht
    · have hsd : s = d := by omega
      subst hsd
      rw [prevCloseAt_refl (le_refl _)] at hpc
      subst hpc
      rw [dateRange_cons hse, fill_list_cons] at hr
      rcases List.mem_append.1 hr with hh | ht
      · unfold fillHead at hh
        rw [hnone] at hh
        simp at hh
      · have hd := fill_dates hcoh _ _ _ ht
        have := mem_dateRange.1 hd
        omega
  · rw [dateRange_nil (by omega)] at hr
    simp [fill_list] at hr
termination_by d - s

/-! ### Daily-store lemmas (for C2) -/

lemma insert_daily_isSome {st : DailyStore} {r : Row} {sid d : Nat}
    (h : (st sid d).isSome) :
    ((insert_daily_data st r) sid d).isSome := by
  unfold insert_daily_data
  split <;> simp [h]

lemma executemany_preserve {rows : List Row} :
    ∀ {st : DailyStore} {sid d : Nat}, (st sid d).isSome →
      ((executemany_daily st rows) sid d).isSome := by
  induction rows with
  | nil => intro st sid d h; exact h
  | cons r t ih =>
    intro st sid d h
    exact ih (insert_daily_isSome h)

lemma executemany_isSome_of_mem {rows : List Row} {rr : Row}
    (hm : rr ∈ rows) :
    ∀ st : DailyStore,
      ((executemany_daily st rows) rr.symbol_id rr.date).isSome := by
  induction rows with
  | nil => simp at hm
  | cons r t ih =>
    intro st
    rcases List.mem_cons.1 hm with heq | hmem
    · subst heq
      show ((executemany_daily (insert_daily_data st rr) t)
        rr.symbol_id rr.date).isSome
      apply executemany_preserve
      unfold insert_daily_data
      rw [if_pos ⟨rfl, rfl⟩]
      rfl
    · exact ih hmem _

/-! ### C5: the gap-fill walk -/

/-- **C5**.  In the walk over every calendar date of `[s, e]`:
a date with a real normalized bar keeps exactly that bar (part 1), and
its close is what the walk carries forward as previous close (part 4);
a missing date whose previous close is known yields the synthetic bar
with volume 0 and open = high = low = close = previous close (part 2);
a missing date before any previous close is known yields no row at all
(part 3).  `prevCloseAt rows none s d` is the walk's `prev_close` state
on reaching `d`; part 4 identifies it with the close of the latest real
bar in `[s, d)`. -/
theorem fill_missing_dates_walk (symbol_id : Nat)
    (rows : Nat → Option Row) (s e d : Nat)
    (hcoh : RowsCoherent symbol_id rows) (h1 : s ≤ d) (h2 : d ≤ e) :
    (∀ r, rows d = some r →
        r ∈ fill_missing_dates symbol_id s e rows) ∧
    (∀ c, rows d = none → prevCloseAt rows none s d = some c →
        synthRow symbol_id d c ∈ fill_missing_dates symbol_id s e rows ∧
        (synthRow symbol_id d c).volume = 0 ∧
        (synthRow symbol_id d c).open_ = c ∧
        (synthRow symbol_id d c).high = c ∧
        (synthRow symbol_id d c).low = c ∧
        (synthRow symbol_id d c).close = c) ∧
    (rows d = none → prevCloseAt rows none s d = none →
        ∀ r ∈ fill_missing_dates symbol_id s e rows, r.date ≠ d) ∧
    (∀ d' r, s ≤ d' → d' < d → rows d' = some r →
        (∀ x, d' < x → x < d → rows x = none) →
        prevCloseAt rows none s d = some r.close) := by
  refine ⟨?_, ?_, ?_, ?_⟩
  · intro r hr
    exact fill_mem_real s d e none h1 h2 hr
  · intro c hd hc
    exact ⟨fill_mem_synth s d e none h1 h2 hd hc, rfl, rfl, rfl, rfl, rfl⟩
  · intro hd hc
    exact fill_none_no_row (fun d r hr => (hcoh d r hr).1) s d e none h1 hd hc
  · intro d' r h3 h4 hr hnone
    exact prevCloseAt_last_real none s d' d h3 h4 hr hnone

/-- Witness for C5: klines with real candles only on days 0 (close 5)
and 2, task range [0, 2].  Day 1 gets the zero-volume synthetic bar
carrying close 5, and the walk's previous close at day 1 is day 0's
close. -/
theorem fill_missing_dates_walk_witness :
    synthRow 7 1 5 ∈ fill_missing_dates 7 0 2 rowsC5 ∧
    (synthRow 7 1 5).volume = 0 ∧
    prevCloseAt rowsC5 none 0 1 = some 5 := by
  have h := fill_missing_dates_walk 7 rowsC5 0 2 1
    (normalize_coherent 7 klinesC5) (by decide) (by decide)
  refine ⟨(h.2.1 5 rfl rfl).1, rfl, ?_⟩
  exact h.2.2.2 0 (rowOfKline 7 ⟨0, 1, 2, 3, 5, 6⟩) (by decide) (by decide)
    rfl (fun x hx1 hx2 => by omega)

/-! ### C2: coverage after a successful task -/

/-- **C2** (counterexample to the claim as stated).  A task over [0, 1]
whose API returns a candle only for day 1 completes successfully, yet
day 0 — inside [task.start, task.end] — has no `DailyBar` row
afterwards: the walk skips dates that precede the first real bar. -/
theorem filter3_coverage_counterexample :
    filter_3_fill_task apiC2x 2 storeEmpty taskC2x =
      TaskResult.ok storeC2xAfter ∧
    taskC2x.start_date ≤ 0 ∧ (0 : Nat) ≤ taskC2x.end_date ∧
    storeC2xAfter taskC2x.symbol_id 0 = none :=
  ⟨rfl, Nat.le_refl 0, Nat.zero_le 1, rfl⟩

/-- **C2** (amended).  After a fetch task completes successfully, every
calendar date `d` of `[task.start, task.end]` that lies on or after some
date `d'` carrying a real normalized bar has a `DailyBar` row for the
task's symbol (and the store is keyed by (symbol identity, date), so
"exactly one").  Dates before the first API-returned bar are the sole
exception to the claim's original "every calendar date". -/
theorem filter3_coverage_after_first_bar {E : Type}
    (api : KlineRequest → Except E (List Kline)) (fuel : Nat)
    (st st' : DailyStore) (task : FetchTask) (klines : List Kline)
    (hfetch : fetch_klines_range api task.symbol task.start_date
        task.end_date fuel = .ok klines)
    (hrun : filter_3_fill_task api fuel st task = .ok st')
    (d : Nat) (h1 : task.start_date ≤ d) (h2 : d ≤ task.end_date)
    (d' : Nat) (h3 : task.start_date ≤ d') (h4 : d' ≤ d)
    (hreal : (normalize_klines task.symbol_id klines d').isSome) :
    (st' task.symbol_id d).isSome := by
  simp only [filter_3_fill_task, hfetch] at hrun
  have hcoh := normalize_coherent task.symbol_id klines
  have hmem : ∃ r ∈ fill_missing_dates task.symbol_id task.start_date
      task.end_date (normalize_klines task.symbol_id klines),
      r.symbol_id = task.symbol_id ∧ r.date = d := by
    cases hrow : normalize_klines task.symbol_id klines d with
    | some r =>
      obtain ⟨hrd, hrs⟩ := hcoh d r hrow
      exact ⟨r, fill_mem_real _ d _ none h1 h2 hrow, hrs, hrd⟩
    | none =>
      have hne : d' ≠ d := by
        intro he
        rw [he, hrow] at hreal
        simp at hreal
      have hlt : d' < d := by omega
      obtain ⟨rr, hrr⟩ := Option.isSome_iff_exists.1 hreal
      have hsome := @prevCloseAt_isSome_of_real
        (normalize_klines task.symbol_id klines) none
        task.start_date d' d h3 hlt (by rw [hrr]; rfl)
      obtain ⟨c, hc⟩ := Option.isSome_iff_exists.1 hsome
      exact ⟨synthRow task.symbol_id d c,
        fill_mem_synth _ d _ none h1 h2 hrow hc, rfl, rfl⟩
  obtain ⟨r, hrmem, hrs, hrd⟩ := hmem
  have hne : (fill_missing_dates task.symbol_id task.start_date
      task.end_date (normalize_klines task.symbol_id klines)).isEmpty
      = false := by
    cases hl : fill_missing_dates task.symbol_id task.start_date
        task.end_date (normalize_klines task.symbol_id klines) with
    | nil => rw [hl] at hrmem; simp at hrmem
    | cons a t => rfl
  rw [hne] at hrun
  simp only [Bool.false_eq_true, if_false] at hrun
  cases hrun
  have := executemany_isSome_of_mem hrmem st
  rw [hrs, hrd] at this
  exact this

/-- Witness for the amended C2: the API serves one candle on day 0 and
then an empty page for a task over [0, 1]; afterwards day 1 (on/after
the real bar of day 0) has a row. -/
theorem filter3_coverage_after_first_bar_witness :
    (storeC2wAfter 7 1).isSome :=
  filter3_coverage_after_first_bar apiC2w 3 storeEmpty storeC2wAfter
    taskC2w klinesC2w rfl rfl 1 (Nat.zero_le 1) (Nat.le_refl 1) 0
    (Nat.le_refl 0) (Nat.zero_le 1) (by decide)

/-! ### C7: ranking is a stable descending sort plus truncation -/

/-- **C7**.  Part 1: the Selector's ranking is a sort by liquidity
metric descending (the result is pairwise descending and a permutation
of the candidates) truncated to `max_symbols`.  Part 2 (determinism):
for three candidates with liquidity values {100, 50, 100} and budget 2,
*whatever order* the candidates arrive in, the two value-100 candidates
are picked and the value-50 candidate never is — the selection is a
deterministic function of the input and ties cannot pull in a
lower-value candidate. -/
theorem filter1_ranking_deterministic :
    (∀ l : List Candidate,
        (sort_by_liquidity l).Pairwise
          (fun a b => b.liquidity_metric ≤ a.liquidity_metric) ∧
        (sort_by_liquidity l).Perm l ∧
        ∀ n, top_active n l = (sort_by_liquidity l).take n) ∧
    (∀ l : List Candidate, l.Perm [candA, candB, candC] →
        (top_active 2 l).map Candidate.liquidity_metric = [100, 100] ∧
          candB ∉ top_active 2 l) := by
  constructor
  · intro l
    haveI : IsTotal Candidate
        (fun a b => b.liquidity_metric ≤ a.liquidity_metric) :=
      ⟨fun a b => le_total b.liquidity_metric a.liquidity_metric⟩
    haveI : IsTrans Candidate
        (fun a b => b.liquidity_metric ≤ a.liquidity_metric) :=
      ⟨fun a b c hab hbc => le_trans hbc hab⟩
    exact ⟨List.sorted_insertionSort _ l, List.perm_insertionSort _ l,
      fun n => rfl⟩
  · intro l hl
    have hlen : l.length = 3 := by simpa using hl.length_eq
    match l, hlen with
    | [x, y, z], _ =>
      have hx : x ∈ [candA, candB, candC] := hl.mem_iff.1 (by simp)
      have hy : y ∈ [candA, candB, candC] := hl.mem_iff.1 (by simp)
      have hz : z ∈ [candA, candB, candC] := hl.mem_iff.1 (by simp)
      fin_cases hx <;> fin_cases hy <;> fin_cases hz <;> revert hl <;> decide

/-- Witness for C7: the arrival order (100, 50, 100) reversed still
selects the two value-100 candidates and never the value-50 one. -/
theorem filter1_ranking_deterministic_witness :
    (top_active 2 [candC, candB, candA]).map Candidate.liquidity_metric =
      [100, 100] ∧ candB ∉ top_active 2 [candC, candB, candA] :=
  filter1_ranking_deterministic.2 [candC, candB, candA] (by decide)
